import Mathlib

/-!
Shallow embedding of the slot-watching notifier (src/app.py).

The embedding follows the source code:
* `classify_status` — the status classification chain of
  `fetch_parsed_with_page` (icon class / icon color / background / text).
* `dedupe` / `normalize` — the dedupe-and-sort post-processing of
  `fetch_parsed_with_page`.
* `stGet` / `stSet` — Python dict get/update on the persisted state, as an
  insertion-ordered association list.
* `load_notified_legacy` — the legacy-list branch of `_load_notified`.
* `notifiable` / `diffEngine` — the per-record decision loop of
  `notify_once_for_starts`.
* `notify_once` — the cycle body of `notify_once_for_starts` (dispatch
  guarded by recipients, state persisted unconditionally).
* `send_email` / `send_line` — the dispatcher, with the network calls
  abstracted as oracles (`NetResult`) and the side effects (audit history
  entries, text-log lines) returned as explicit traces.
-/

/-- One observed slot, as produced by the post-processing loop of
`fetch_parsed_with_page`: `date`/`time` are both parsed from `start_raw`
(both `none` when the regular expressions fail), `status` is the
classification result, and `service_cd`/`start_raw` are the attribute
fields used for slot identity. -/
structure ObsRecord where
  date : Option String
  time : Option String
  status : String
  raw_text : String
  service_cd : String
  start_raw : String
deriving DecidableEq

/-- Model of `_slot_key`: the tuple (date, time, service_cd, start_raw) of a record. -/
def slot_key (r : ObsRecord) : Option String × Option String × String × String :=
  (r.date, r.time, r.service_cd, r.start_raw)

/-- JSON escaping of one character, as `json.dumps` applies it to the
quote and backslash characters (the key fields never hold control
characters, which are the only other escaped class). -/
def jsonEscapeChar (c : Char) : String :=
  if c = '"' then "\\\"" else if c = '\\' then "\\\\" else String.singleton c

/-- JSON serialization of one string, as in `json.dumps`. -/
def jsonString (s : String) : String :=
  "\"" ++ String.join (s.toList.map jsonEscapeChar) ++ "\""

/-- JSON serialization of a possibly-null string field. -/
def jsonField : Option String → String
  | none => "null"
  | some v => jsonString v

/-- Model of `_key_to_str`: `json.dumps(list(key_tuple), ensure_ascii=False)`,
with the default ", " item separator. -/
def key_to_str (k : Option String × Option String × String × String) : String :=
  "[" ++ jsonField k.1 ++ ", " ++ jsonField k.2.1 ++ ", "
      ++ jsonString k.2.2.1 ++ ", " ++ jsonString k.2.2.2 ++ "]"

/-- Serialized key of a record, as used by the notify loop. -/
def recKeyStr (r : ObsRecord) : String := key_to_str (slot_key r)

/-- The persisted notified-state: a Python dict `key_str -> status`,
modelled as an insertion-ordered association list with unique keys. -/
abbrev StateMap := List (String × String)

/-- Python `d.get(k)`: the value at the first (unique) occurrence of `k`. -/
def stGet (m : StateMap) (k : String) : Option String :=
  (m.find? (fun p => p.1 == k)).map (fun p => p.2)

/-- Python `d[k] = v`: overwrite the entry in place when the key exists,
append a new entry otherwise (dict insertion order). -/
def stSet : StateMap → String → String → StateMap
  | [], k, v => [(k, v)]
  | p :: m, k, v => if p.1 = k then (k, v) :: m else p :: stSet m k v

theorem stGet_cons (p : String × String) (m : StateMap) (k2 : String) :
    stGet (p :: m) k2 = if p.1 = k2 then some p.2 else stGet m k2 := by
  by_cases h : p.1 = k2
  · simp [stGet, List.find?_cons, h]
  · have hb : (p.1 == k2) = false := by simp [h]
    simp [stGet, List.find?_cons, hb, h]

theorem stGet_stSet (m : StateMap) (k v : String) (k2 : String) :
    stGet (stSet m k v) k2 = if k2 = k then some v else stGet m k2 := by
  induction m with
  | nil =>
    by_cases h : k2 = k
    · simp [stSet, stGet, List.find?_cons, h]
    · have hb : (k == k2) = false := by simp [Ne.symm h]
      simp [stSet, stGet, List.find?_cons, hb, h]
  | cons p m ih =>
    by_cases hp : p.1 = k
    · simp only [stSet, if_pos hp]
      rw [stGet_cons, stGet_cons]
      by_cases h2 : k2 = k
      · simp [h2]
      · simp only [if_neg h2]
        rw [if_neg (by simpa using Ne.symm h2)]
        rw [if_neg (hp ▸ (by simpa using Ne.symm h2 : ¬k = k2))]
    · simp only [stSet, if_neg hp]
      rw [stGet_cons, stGet_cons, ih]
      by_cases h2 : p.1 = k2
      · have : ¬k2 = k := fun hc => hp (h2.trans (hc ▸ rfl))
        simp [h2, this]
      · simp [h2]

/-- The notify decision of `notify_once_for_starts`: a record is appended
to `produced` when its current status is not "full" and differs from the
previously recorded status (absent counts as different). -/
def notifiable (cur : String) (prev : Option String) : Bool :=
  cur != "full" && prev != some cur

/-- The inner loop of `notify_once_for_starts` over the fetched records:
`prev` is the state loaded at the start of the cycle (lookups always go
to it), `acc` is the `new_notified` dict being updated. Returns
(`produced`, final `new_notified`). -/
def diffAux (prev : StateMap) : List ObsRecord → StateMap → List ObsRecord × StateMap
  | [], acc => ([], acc)
  | c :: cs, acc =>
    let ks := recKeyStr c
    let rest := diffAux prev cs (stSet acc ks c.status)
    (if notifiable c.status (stGet prev ks) then c :: rest.1 else rest.1, rest.2)

/-- The diff step of a cycle: `new_notified` starts as `dict(prev)` and
every observed record is processed in order. -/
def diffEngine (items : List ObsRecord) (prev : StateMap) : List ObsRecord × StateMap :=
  diffAux prev items prev

theorem diffAux_fst (prev : StateMap) (items : List ObsRecord) (acc : StateMap) :
    (diffAux prev items acc).1
      = items.filter (fun c => notifiable c.status (stGet prev (recKeyStr c))) := by
  induction items generalizing acc with
  | nil => simp [diffAux]
  | cons c cs ih =>
    simp only [diffAux, List.filter_cons]
    by_cases h : notifiable c.status (stGet prev (recKeyStr c))
    · simp [h, ih]
    · simp [h, ih]

theorem diffAux_snd (prev : StateMap) (items : List ObsRecord) (acc : StateMap) :
    (diffAux prev items acc).2
      = items.foldl (fun m c => stSet m (recKeyStr c) c.status) acc := by
  induction items generalizing acc with
  | nil => simp [diffAux]
  | cons c cs ih => simp [diffAux, ih, List.foldl_cons]

theorem stGet_foldl_of_not_mem (items : List ObsRecord) (acc : StateMap) (k : String)
    (h : ∀ c ∈ items, recKeyStr c ≠ k) :
    stGet (items.foldl (fun m c => stSet m (recKeyStr c) c.status) acc) k = stGet acc k := by
  induction items generalizing acc with
  | nil => simp
  | cons c cs ih =>
    simp only [List.foldl_cons]
    rw [ih _ (fun d hd => h d (List.mem_cons_of_mem _ hd))]
    rw [stGet_stSet]
    have := h c (List.mem_cons_self _ _)
    simp [Ne.symm this]

theorem stGet_foldl_pairwise (items : List ObsRecord) (acc : StateMap)
    (hkeys : items.Pairwise (fun a b => recKeyStr a ≠ recKeyStr b)) :
    ∀ c ∈ items,
      stGet (items.foldl (fun m c => stSet m (recKeyStr c) c.status) acc) (recKeyStr c)
        = some c.status := by
  induction items generalizing acc with
  | nil => intro c hc; simp at hc
  | cons d cs ih =>
    intro c hc
    rcases List.pairwise_cons.mp hkeys with ⟨hd, hcs⟩
    rcases List.mem_cons.mp hc with rfl | hc2
    · simp only [List.foldl_cons]
      rw [stGet_foldl_of_not_mem _ _ _ (fun e he => Ne.symm (hd e he))]
      rw [stGet_stSet]
      simp
    · simp only [List.foldl_cons]
      exact ih _ hcs c hc2

/-- Result of one notification cycle. -/
structure CycleResult where
  emailAttempted : Bool
  produced : List ObsRecord
  saved : StateMap
deriving DecidableEq

/-- The cycle body of `notify_once_for_starts`: run the diff over the
fetched records, call `send_email` only when `produced` and `recipients`
are both non-empty, and persist `new_notified` unconditionally.
`emailOutcome` is the Boolean `send_email` would return; the source
discards that value, which this definition makes explicit by ignoring
the argument. -/
def notify_once (recipients : List String) (items : List ObsRecord)
    (prev : StateMap) (emailOutcome : Bool) : CycleResult :=
  let d := diffEngine items prev
  { emailAttempted := decide (d.1 ≠ []) && decide (recipients ≠ [])
    produced := d.1
    saved := d.2 }

/-- Sample records with distinct slot keys, used by the witnesses. -/
def recA : ObsRecord :=
  { date := some "2025-11-09", time := some "13:00", status := "available"
    raw_text := "13:00 〇", service_cd := "svc1", start_raw := "2025-11-09 13:00" }

/-- A second sample record, "full", with a different slot key. -/
def recB : ObsRecord :=
  { date := some "2025-11-10", time := some "10:00", status := "full"
    raw_text := "10:00", service_cd := "svc1", start_raw := "2025-11-10 10:00" }

/-- C1: a record of the cycle is marked notifiable (appended to
`produced`) if and only if its current status is not "full" and differs
from the previously recorded status of its slot key; an absent prior
record counts as differing. The lookups go to the state loaded at the
start of the cycle, so `produced` is exactly the filter of the observed
records by that rule. -/
theorem claim_C1_notifiable_iff (items : List ObsRecord) (prev : StateMap) :
    (diffEngine items prev).1
      = items.filter (fun c => notifiable c.status (stGet prev (recKeyStr c)))
    ∧ ∀ c : ObsRecord, c ∈ (diffEngine items prev).1
        ↔ c ∈ items ∧ notifiable c.status (stGet prev (recKeyStr c)) := by
  refine ⟨diffAux_fst prev items prev, ?_⟩
  intro c
  rw [diffEngine, diffAux_fst]
  simp [List.mem_filter]

/-- C2: every slot key observed in a cycle has its persisted entry set to
the currently observed status, whatever the recipients and whatever value
the dispatch returns (the saved state does not depend on either). -/
theorem claim_C2_state_updated (recipients : List String) (items : List ObsRecord)
    (prev : StateMap) (outcome : Bool)
    (hkeys : items.Pairwise (fun a b => recKeyStr a ≠ recKeyStr b)) :
    (∀ c ∈ items,
        stGet (notify_once recipients items prev outcome).saved (recKeyStr c)
          = some c.status)
    ∧ ∀ (r2 : List String) (o2 : Bool),
        (notify_once recipients items prev outcome).saved
          = (notify_once r2 items prev o2).saved := by
  constructor
  · intro c hc
    show stGet (diffEngine items prev).2 (recKeyStr c) = some c.status
    rw [diffEngine, diffAux_snd]
    exact stGet_foldl_pairwise items prev hkeys c hc
  · intro r2 o2
    rfl

/-- Witness for C2 at a concrete cycle. -/
theorem claim_C2_state_updated_witness :
    stGet (notify_once ["a@example.com"] [recA, recB] [] true).saved (recKeyStr recA)
      = some "available"
    ∧ stGet (notify_once ["a@example.com"] [recA, recB] [] true).saved (recKeyStr recB)
      = some "full" := by
  have h := claim_C2_state_updated ["a@example.com"] [recA, recB] [] true (by decide)
  exact ⟨h.1 recA (by decide), h.1 recB (by decide)⟩

/-- C9: running the diff step a second time with the identical records
against the state produced by the first run yields zero notifiable
records. -/
theorem claim_C9_diff_idempotent (items : List ObsRecord) (prev : StateMap)
    (hkeys : items.Pairwise (fun a b => recKeyStr a ≠ recKeyStr b)) :
    (diffEngine items (diffEngine items prev).2).1 = [] := by
  rw [diffEngine, diffAux_fst]
  apply List.filter_eq_nil_iff.mpr
  intro c hc
  have hget : stGet (diffEngine items prev).2 (recKeyStr c) = some c.status := by
    rw [diffEngine, diffAux_snd]
    exact stGet_foldl_pairwise items prev hkeys c hc
  simp [notifiable, hget]

/-- Witness for C9 at a concrete cycle. -/
theorem claim_C9_diff_idempotent_witness :
    (diffEngine [recA, recB] (diffEngine [recA, recB] []).2).1 = [] :=
  claim_C9_diff_idempotent [recA, recB] [] (by decide)

/-- C10: with an empty recipient list the cycle attempts no email even
when notifiable records exist, yet still persists the observed statuses;
a later cycle over the same records, now with recipients configured,
produces no notifiable records and attempts no email. -/
theorem claim_C10_empty_recipients (items : List ObsRecord) (prev : StateMap)
    (outcome o2 : Bool) (newRecipients : List String)
    (hkeys : items.Pairwise (fun a b => recKeyStr a ≠ recKeyStr b)) :
    (notify_once [] items prev outcome).emailAttempted = false
    ∧ (∀ c ∈ items,
        stGet (notify_once [] items prev outcome).saved (recKeyStr c) = some c.status)
    ∧ (notify_once newRecipients items
        ((notify_once [] items prev outcome).saved) o2).produced = []
    ∧ (notify_once newRecipients items
        ((notify_once [] items prev outcome).saved) o2).emailAttempted = false := by
  have hsaved : (notify_once [] items prev outcome).saved = (diffEngine items prev).2 := rfl
  have hprod2 : (diffEngine items (diffEngine items prev).2).1 = [] := by
    rw [diffEngine, diffAux_fst]
    apply List.filter_eq_nil_iff.mpr
    intro c hc
    have hget : stGet (diffEngine items prev).2 (recKeyStr c) = some c.status := by
      rw [diffEngine, diffAux_snd]
      exact stGet_foldl_pairwise items prev hkeys c hc
    simp [notifiable, hget]
  refine ⟨by simp [notify_once], ?_, ?_, ?_⟩
  · intro c hc
    show stGet (diffEngine items prev).2 (recKeyStr c) = some c.status
    rw [diffEngine, diffAux_snd]
    exact stGet_foldl_pairwise items prev hkeys c hc
  · show (diffEngine items (diffEngine items prev).2).1 = []
    rw [hsaved] at *
    exact hprod2
  · show (decide ((diffEngine items (notify_once [] items prev outcome).saved).1 ≠ [])
        && decide (newRecipients ≠ [])) = false
    rw [hsaved, hprod2]
    simp

/-- Witness for C10 at a concrete cycle: recA transitions while no
recipients exist; the transition is consumed. -/
theorem claim_C10_empty_recipients_witness :
    (notify_once [] [recA, recB] [] true).emailAttempted = false
    ∧ (notify_once ["late@example.com"] [recA, recB]
        ((notify_once [] [recA, recB] [] true).saved) true).produced = [] := by
  have h := claim_C10_empty_recipients [recA, recB] [] true true
    ["late@example.com"] (by decide)
  exact ⟨h.1, h.2.2.1⟩

/-! ## Observation normalizer: dedupe and sort (`fetch_parsed_with_page`) -/

/-- The `seen` set of the dedupe loop holds slot-key tuples. -/
abbrev SlotKeyT := Option String × Option String × String × String

/-- The dedupe loop: first occurrence of each slot key wins, later
occurrences are skipped. -/
def dedupeAux (seen : List SlotKeyT) : List ObsRecord → List ObsRecord
  | [] => []
  | r :: rs =>
    if slot_key r ∈ seen then dedupeAux seen rs
    else r :: dedupeAux (slot_key r :: seen) rs

/-- Source loop: `seen = set(); deduped = []; for r in results: ...` -/
def dedupe (rs : List ObsRecord) : List ObsRecord := dedupeAux [] rs

/-- The sort key: `x.get("date") or "9999-12-31"`, compared as Python
compares strings (by code points), hence as a `List Char`. -/
def sortDate (r : ObsRecord) : List Char := (r.date.getD "9999-12-31").toList

/-- The sort key: `x.get("time") or "99:99"`. -/
def sortTime (r : ObsRecord) : List Char := (r.time.getD "99:99").toList

/-- Lexicographic comparison of the `(date, time)` sort-key pair, i.e.
Python tuple comparison of the two key strings. -/
def sortLE (a b : ObsRecord) : Prop :=
  sortDate a < sortDate b ∨ (sortDate a = sortDate b ∧ sortTime a ≤ sortTime b)

instance : DecidableRel sortLE := fun a b => by unfold sortLE; infer_instance

instance : IsTotal ObsRecord sortLE where
  total a b := by
    rcases lt_trichotomy (sortDate a) (sortDate b) with h | h | h
    · exact Or.inl (Or.inl h)
    · rcases le_total (sortTime a) (sortTime b) with ht | ht
      · exact Or.inl (Or.inr ⟨h, ht⟩)
      · exact Or.inr (Or.inr ⟨h.symm, ht⟩)
    · exact Or.inr (Or.inl h)

instance : IsTrans ObsRecord sortLE where
  trans a b c hab hbc := by
    rcases hab with hab | ⟨hab, hab2⟩
    · rcases hbc with hbc | ⟨hbc, _⟩
      · exact Or.inl (hab.trans hbc)
      · exact Or.inl (hbc ▸ hab)
    · rcases hbc with hbc | ⟨hbc, hbc2⟩
      · exact Or.inl (hab ▸ hbc)
      · exact Or.inr ⟨hab.trans hbc, hab2.trans hbc2⟩

/-- The sort `deduped.sort(key=sort_key)`: Python sorts are stable; insertion sort
is the stable sort for the same total preorder, so the outputs agree. -/
def normalizeObs (rs : List ObsRecord) : List ObsRecord :=
  List.insertionSort sortLE (dedupe rs)

theorem dedupeAux_sublist (seen : List SlotKeyT) (rs : List ObsRecord) :
    (dedupeAux seen rs).Sublist rs := by
  induction rs generalizing seen with
  | nil => simp [dedupeAux]
  | cons r rs ih =>
    simp only [dedupeAux]
    split
    · exact (ih seen).cons r
    · exact (ih (slot_key r :: seen)).cons₂ r

theorem dedupeAux_not_seen (seen : List SlotKeyT) (rs : List ObsRecord) :
    ∀ q ∈ dedupeAux seen rs, slot_key q ∉ seen := by
  induction rs generalizing seen with
  | nil => simp [dedupeAux]
  | cons r rs ih =>
    intro q hq
    simp only [dedupeAux] at hq
    split at hq
    · exact ih seen q hq
    · rcases List.mem_cons.mp hq with rfl | hq2
      · assumption
      · have := ih (slot_key r :: seen) q hq2
        exact fun hc => this (List.mem_cons_of_mem _ hc)

theorem dedupeAux_pairwise (seen : List SlotKeyT) (rs : List ObsRecord) :
    (dedupeAux seen rs).Pairwise (fun a b => slot_key a ≠ slot_key b) := by
  induction rs generalizing seen with
  | nil => simp [dedupeAux]
  | cons r rs ih =>
    simp only [dedupeAux]
    split
    · exact ih seen
    · refine List.pairwise_cons.mpr ⟨?_, ih (slot_key r :: seen)⟩
      intro q hq
      have := dedupeAux_not_seen (slot_key r :: seen) rs q hq
      exact fun hc => this (hc ▸ List.mem_cons_self _ _)

theorem dedupeAux_covers (seen : List SlotKeyT) (rs : List ObsRecord) :
    ∀ r ∈ rs, slot_key r ∈ seen ∨ ∃ q ∈ dedupeAux seen rs, slot_key q = slot_key r := by
  induction rs generalizing seen with
  | nil => simp
  | cons d rs ih =>
    intro r hr
    simp only [dedupeAux]
    rcases List.mem_cons.mp hr with rfl | hr2
    · by_cases h : slot_key r ∈ seen
      · exact Or.inl h
      · exact Or.inr ⟨r, by simp [h], rfl⟩
    · by_cases h : slot_key d ∈ seen
      · simpa [h] using ih seen r hr2
      · rcases ih (slot_key d :: seen) r hr2 with hs | ⟨q, hq, hqk⟩
        · rcases List.mem_cons.mp hs with heq | hs2
          · exact Or.inr ⟨d, by simp [h], heq.symm⟩
          · exact Or.inl hs2
        · exact Or.inr ⟨q, by simp [h, hq], hqk⟩

/-! ## Date/time extraction from `start_raw` (the first regex of
`fetch_parsed_with_page`; the second, narrower fallback regex only
matches strings the first one already matches). -/

/-- Digit quantifier of the regex: exactly `n` digit characters. -/
def takeDigits : Nat → List Char → Option (List Char × List Char)
  | 0, cs => some ([], cs)
  | _ + 1, [] => none
  | n + 1, c :: cs =>
    if c.isDigit then (takeDigits n cs).map (fun p => (c :: p.1, p.2)) else none

/-- The slash-or-hyphen character class of the regex: one of `/` `-`. -/
def matchSep : List Char → Option (List Char)
  | c :: cs => if c = '/' || c = '-' then some cs else none
  | [] => none

/-- One attempt of the regex
`(\d 4)(sep)(\d 2)(sep)(\d 2)[T space]?(\d 2):(\d 2)` (sep = slash or hyphen,
exact digit counts 4,2,2,2,2) anchored at the
current position, returning the derived `(date, time)` strings
`YYYY-MM-DD` / `HH:MM`. The optional `[T\s]?` (here: `T` or space) can
be consumed greedily because neither `T` nor a space is a digit. -/
def matchStartHere (cs : List Char) : Option (String × String) := do
  let (y, cs) ← takeDigits 4 cs
  let cs ← matchSep cs
  let (mo, cs) ← takeDigits 2 cs
  let cs ← matchSep cs
  let (dy, cs) ← takeDigits 2 cs
  let cs := match cs with
    | c :: rest => if c = 'T' || c = ' ' then rest else c :: rest
    | [] => []
  let (hh, cs) ← takeDigits 2 cs
  let cs ← (match cs with
    | c :: rest => if c = ':' then some rest else none
    | [] => none)
  let (mi, _) ← takeDigits 2 cs
  pure (String.mk y ++ "-" ++ String.mk mo ++ "-" ++ String.mk dy,
        String.mk hh ++ ":" ++ String.mk mi)

/-- Search discipline of `re.search`: leftmost position where the pattern matches. -/
def searchStart : List Char → Option (String × String)
  | [] => none
  | c :: cs =>
    match matchStartHere (c :: cs) with
    | some r => some r
    | none => searchStart cs

/-- The date/time fields derived from `start_raw`: both set on a match,
both null otherwise. -/
def parse_datetime (start_raw : String) : Option String × Option String :=
  match searchStart start_raw.toList with
  | some (d, t) => (some d, some t)
  | none => (none, none)

/-- A record whose `start_raw` did not parse: date and time are null. -/
def recM : ObsRecord :=
  { date := none, time := none, status := "available"
    raw_text := "〇", service_cd := "svcM", start_raw := "tbd" }

/-- A record parsed from `start_raw = "9999-99-99 50:00"`: the regex
accepts any digits, so the concrete date "9999-99-99" sorts strictly
above the missing-date sentinel "9999-12-31". -/
def recC : ObsRecord :=
  { date := some "9999-99-99", time := some "50:00", status := "available"
    raw_text := "x", service_cd := "svcC", start_raw := "9999-99-99 50:00" }

/-- The sentinel the sort substitutes for a missing date. -/
def sentinelD : List Char := "9999-12-31".toList

/-- The sentinel the sort substitutes for a missing time. -/
def sentinelT : List Char := "99:99".toList

/-- C8 counterexample: the claim says a record with a missing date sorts
after all records with concrete values. But the parser accepts the
concrete date "9999-99-99" (from `start_raw = "9999-99-99 50:00"`),
which compares strictly above the missing-date sentinel "9999-12-31";
normalizing `[recM, recC]` leaves the missing-date record `recM` strictly
before the concrete-date record `recC`. -/
theorem claim_C8_counterexample :
    parse_datetime "9999-99-99 50:00" = (some "9999-99-99", some "50:00")
    ∧ recM.date = none ∧ recM.time = none
    ∧ recC.date = some "9999-99-99"
    ∧ normalizeObs [recM, recC] = [recM, recC] := by decide

/-- C8 as amended: the output is the input deduplicated by slot key
(an order-preserving selection covering every key, with no two kept
records sharing a key), sorted ascending by the `(date, time)` key pair
in which a missing date/time is replaced by the sentinels
"9999-12-31"/"99:99"; consequently a record with missing date and time
sorts after exactly those records whose key pair is strictly below the
sentinel pair — not after all records with concrete values. -/
theorem claim_C8_normalizer (rs : List ObsRecord) :
    (normalizeObs rs).Perm (dedupe rs)
    ∧ (normalizeObs rs).Pairwise sortLE
    ∧ (normalizeObs rs).Pairwise (fun a b => slot_key a ≠ slot_key b)
    ∧ (dedupe rs).Sublist rs
    ∧ (∀ r ∈ rs, ∃ q ∈ dedupe rs, slot_key q = slot_key r)
    ∧ (normalizeObs rs).Pairwise (fun a b =>
        a.date = none ∧ a.time = none →
          ¬(sortDate b < sentinelD ∨ (sortDate b = sentinelD ∧ sortTime b < sentinelT))) := by
  have hperm : (normalizeObs rs).Perm (dedupe rs) :=
    List.perm_insertionSort sortLE (dedupe rs)
  have hsorted : (normalizeObs rs).Pairwise sortLE :=
    List.sorted_insertionSort sortLE (dedupe rs)
  refine ⟨hperm, hsorted, ?_, dedupeAux_sublist [] rs, ?_, ?_⟩
  · exact (hperm.pairwise_iff (fun h => Ne.symm h)).mpr (dedupeAux_pairwise [] rs)
  · intro r hr
    exact (dedupeAux_covers [] rs r hr).resolve_left (by simp)
  · refine hsorted.imp ?_
    intro a b hab hmiss
    have hda : sortDate a = sentinelD := by
      simp [sortDate, hmiss.1, sentinelD]
    have hta : sortTime a = sentinelT := by
      simp [sortTime, hmiss.2, sentinelT]
    unfold sortLE at hab
    rw [hda, hta] at hab
    rintro (hbad | ⟨hbad, hbad2⟩)
    · rcases hab with hab | ⟨hab, _⟩
      · exact absurd (hab.trans hbad) (lt_irrefl _)
      · exact absurd (hab ▸ hbad) (lt_irrefl _)
    · rcases hab with hab | ⟨hab, hab2⟩
      · exact absurd (hbad ▸ hab) (lt_irrefl _)
      · exact absurd (lt_of_lt_of_le hbad2 hab2) (lt_irrefl _)

/-! ## Notification dispatcher (`send_email`, `send_line`) -/

/-- Outcome of one network call made by a provider attempt. -/
inductive NetResult where
  | success
  | httpFail
  | exn
deriving DecidableEq, Fintype

/-- One entry of the append-only history file `notifications.jsonl`, as
written by `_append_history`: the provider/channel name, the outcome
status, the (masked) token identifiers, and the free-form detail. -/
structure AuditEntry where
  method : String
  status : String
  toks : List String
  detail : String
deriving DecidableEq

/-- The observable trace of one dispatch: the Boolean return value, the
providers/tokens for which a network call was made, the history entries
appended, and the `notification.log` lines written, in order. -/
structure DispatchTrace where
  result : Bool
  attempts : List String
  audits : List AuditEntry
  logs : List String
deriving DecidableEq

/-- Environment of `send_email`: the provider credentials as the source
reads them (`os.environ.get`; a set-but-empty variable is falsy like an
unset one), plus what each provider network call would return. -/
structure EmailEnv where
  sendgrid_key : Option String
  mailgun_key : Option String
  mailgun_domain : Option String
  smtp_host : Option String
  smtp_port : Option Int
  sendgridNet : NetResult
  mailgunNet : NetResult
  smtpOk : Bool
deriving DecidableEq

/-- Python truthiness of an optional environment string. -/
def truthy : Option String → Bool
  | none => false
  | some s => s != ""

/-- Source condition `if sendgrid_key:` -/
def sendgridConfigured (e : EmailEnv) : Bool := truthy e.sendgrid_key

/-- Source condition `if mailgun_key and mailgun_domain:` -/
def mailgunConfigured (e : EmailEnv) : Bool :=
  truthy e.mailgun_key && truthy e.mailgun_domain

/-- Source condition `if smtp_host and smtp_port:` (`SMTP_PORT=0` is falsy). -/
def smtpConfigured (e : EmailEnv) : Bool :=
  truthy e.smtp_host && (match e.smtp_port with
    | none => false
    | some p => p != 0)

/-- Stage 3 and 4 of `send_email`: SMTP when configured (success or
exception, both audited), otherwise the dry-run fallback, which writes a
log line, appends one history entry and returns False. -/
def smtpStage (conf ok : Bool) : DispatchTrace :=
  if conf then
    if ok then
      { result := true, attempts := ["smtp"]
        audits := [{ method := "smtp", status := "success", toks := [], detail := "host:port" }]
        logs := [] }
    else
      { result := false, attempts := ["smtp"]
        audits := [{ method := "smtp", status := "failed", toks := [], detail := "exception" }]
        logs := ["SMTP send failed"] }
  else
    { result := false, attempts := []
      audits := [{ method := "dry-run", status := "dry-run", toks := [], detail := "" }]
      logs := ["DRY-RUN send"] }

/-- Stage 2 of `send_email`: Mailgun when configured. A non-success
status code returns False at once (one failed history entry); only an
exception falls through to the next stage, logging a line but appending
no history entry. -/
def mailgunStage (mgConf smConf : Bool) (mgNet : NetResult) (smtpOk : Bool) : DispatchTrace :=
  if mgConf then
    match mgNet with
    | .success =>
      { result := true, attempts := ["mailgun"]
        audits := [{ method := "mailgun", status := "success", toks := [], detail := "status=200" }]
        logs := [] }
    | .httpFail =>
      { result := false, attempts := ["mailgun"]
        audits := [{ method := "mailgun", status := "failed", toks := [], detail := "status=500" }]
        logs := ["Mailgun send failed"] }
    | .exn =>
      let t := smtpStage smConf smtpOk
      { result := t.result, attempts := "mailgun" :: t.attempts
        audits := t.audits, logs := "Mailgun exception" :: t.logs }
  else smtpStage smConf smtpOk

/-- Stage 1 of `send_email`: SendGrid when configured; same shape as the
Mailgun stage. -/
def sendEmailChain (sgConf mgConf smConf : Bool) (sgNet mgNet : NetResult)
    (smtpOk : Bool) : DispatchTrace :=
  if sgConf then
    match sgNet with
    | .success =>
      { result := true, attempts := ["sendgrid"]
        audits := [{ method := "sendgrid", status := "success", toks := [], detail := "status=202" }]
        logs := [] }
    | .httpFail =>
      { result := false, attempts := ["sendgrid"]
        audits := [{ method := "sendgrid", status := "failed", toks := [], detail := "status=500" }]
        logs := ["SendGrid send failed"] }
    | .exn =>
      let t := mailgunStage mgConf smConf mgNet smtpOk
      { result := t.result, attempts := "sendgrid" :: t.attempts
        audits := t.audits, logs := "SendGrid exception" :: t.logs }
  else mailgunStage mgConf smConf mgNet smtpOk

/-- Model of `send_email`, as the provider chain evaluated on the configured
flags read from the environment and the network outcomes. -/
def send_email (e : EmailEnv) : DispatchTrace :=
  sendEmailChain (sendgridConfigured e) (mailgunConfigured e) (smtpConfigured e)
    e.sendgridNet e.mailgunNet e.smtpOk

/-- Token mask `t[:8]`: the masked form of a token as it appears in history entries
and log lines. -/
def maskTok (t : String) : String := t.take 8

/-- The per-token loop of `send_line`: every token gets a network call;
success sets the overall flag; failed statuses and exceptions both
append a failed history entry (and a log line) and continue. -/
def sendLineAux (resOf : String → NetResult) : List String → Bool × List AuditEntry × List String
  | [] => (false, [], [])
  | t :: ts =>
    let rest := sendLineAux resOf ts
    match resOf t with
    | .success =>
      (true,
        { method := "line", status := "success", toks := [maskTok t], detail := "status=200" }
          :: rest.2.1,
        rest.2.2)
    | .httpFail =>
      (rest.1,
        { method := "line", status := "failed", toks := [maskTok t], detail := "status=401" }
          :: rest.2.1,
        ("LINE send failed " ++ maskTok t) :: rest.2.2)
    | .exn =>
      (rest.1,
        { method := "line", status := "failed", toks := [maskTok t], detail := "exception" }
          :: rest.2.1,
        ("LINE exception " ++ maskTok t) :: rest.2.2)

/-- Model of `send_line`: with no tokens, a dry-run log line only (no history
entry, no network call, returns False); otherwise the fan-out loop. -/
def send_line (tokens : List String) (resOf : String → NetResult) : DispatchTrace :=
  if tokens = [] then
    { result := false, attempts := [], audits := [], logs := ["DRY-RUN LINE send"] }
  else
    let r := sendLineAux resOf tokens
    { result := r.1, attempts := tokens, audits := r.2.1, logs := r.2.2 }

theorem sendLineAux_result (resOf : String → NetResult) (ts : List String) :
    (sendLineAux resOf ts).1 = ts.any (fun t => resOf t == NetResult.success) := by
  induction ts with
  | nil => simp [sendLineAux]
  | cons t ts ih =>
    simp only [sendLineAux, List.any_cons]
    cases h : resOf t <;> simp [h, ih]

theorem sendLineAux_toks (resOf : String → NetResult) (ts : List String) :
    (sendLineAux resOf ts).2.1.map (fun a => a.toks) = ts.map (fun t => [maskTok t]) := by
  induction ts with
  | nil => simp [sendLineAux]
  | cons t ts ih =>
    simp only [sendLineAux]
    cases h : resOf t <;> simp [h, ih]

/-- A SendGrid attempt appends a history entry exactly when it
terminated with a response (success or failed status); an exception
appends none. -/
def sgAudited (e : EmailEnv) : Bool :=
  sendgridConfigured e && !(e.sendgridNet == NetResult.exn)

/-- Mailgun is attempted only when configured and SendGrid was
unconfigured or raised an exception. -/
def mgAttempted (e : EmailEnv) : Bool :=
  mailgunConfigured e && (!(sendgridConfigured e) || e.sendgridNet == NetResult.exn)

/-- A Mailgun attempt appends a history entry exactly when it happened
and terminated with a response. -/
def mgAudited (e : EmailEnv) : Bool := mgAttempted e && !(e.mailgunNet == NetResult.exn)

/-- SMTP is attempted only when configured and each earlier provider was
unconfigured or raised an exception. -/
def smAttempted (e : EmailEnv) : Bool :=
  smtpConfigured e && (!(sendgridConfigured e) || e.sendgridNet == NetResult.exn)
    && (!(mailgunConfigured e) || e.mailgunNet == NetResult.exn)

/-- The dispatch reaches the dry-run fallback exactly when each HTTP
provider was unconfigured or raised an exception and SMTP is
unconfigured. -/
def dryRunB (e : EmailEnv) : Bool :=
  (!(sendgridConfigured e) || e.sendgridNet == NetResult.exn)
    && (!(mailgunConfigured e) || e.mailgunNet == NetResult.exn)
    && !(smtpConfigured e)

theorem chainFacts_C3 :
    ∀ (sg mg sm : Bool) (sgr mgr : NetResult) (ok : Bool),
    ("sendgrid" ∈ (sendEmailChain sg mg sm sgr mgr ok).attempts ↔ sg = true)
    ∧ ("mailgun" ∈ (sendEmailChain sg mg sm sgr mgr ok).attempts
        ↔ (mg = true ∧ (sg = false ∨ sgr = NetResult.exn)))
    ∧ ("smtp" ∈ (sendEmailChain sg mg sm sgr mgr ok).attempts
        ↔ (sm = true ∧ (sg = false ∨ sgr = NetResult.exn)
            ∧ (mg = false ∨ mgr = NetResult.exn)))
    ∧ (sg = true → sgr = NetResult.success →
        (sendEmailChain sg mg sm sgr mgr ok).result = true
        ∧ (sendEmailChain sg mg sm sgr mgr ok).attempts = ["sendgrid"])
    ∧ (sg = true → sgr = NetResult.httpFail →
        (sendEmailChain sg mg sm sgr mgr ok).result = false
        ∧ (sendEmailChain sg mg sm sgr mgr ok).attempts = ["sendgrid"])
    ∧ ((sg = false ∨ sgr = NetResult.exn) → mg = true → mgr = NetResult.success →
        (sendEmailChain sg mg sm sgr mgr ok).result = true
        ∧ "smtp" ∉ (sendEmailChain sg mg sm sgr mgr ok).attempts)
    ∧ (sg = true → sgr = NetResult.exn → mg = true → mgr = NetResult.success →
        (sendEmailChain sg mg sm sgr mgr ok).result = true
        ∧ (sendEmailChain sg mg sm sgr mgr ok).audits
            = [{ method := "mailgun", status := "success", toks := []
                 detail := "status=200" }]
        ∧ (sendEmailChain sg mg sm sgr mgr ok).logs = ["SendGrid exception"]) := by
  intro sg mg sm sgr mgr ok
  cases sg <;> cases mg <;> cases sm <;> cases sgr <;> cases mgr <;> cases ok <;>
    exact ⟨by decide, by decide, by decide, by decide, by decide, by decide, by decide⟩

/-- SendGrid configured but failing with an HTTP error status; Mailgun
configured and able to succeed. -/
def envC3 : EmailEnv :=
  { sendgrid_key := some "SG.alpha", mailgun_key := some "mg-alpha"
    mailgun_domain := some "mg.example", smtp_host := none, smtp_port := none
    sendgridNet := NetResult.httpFail, mailgunNet := NetResult.success, smtpOk := true }

/-- C3 counterexample: provider A (SendGrid) is configured and its
attempt fails with a non-success HTTP status; provider B (Mailgun) is
configured and would succeed. The claim says B is then attempted and the
overall dispatch result is success with both attempts audited; the code
instead returns False at once, never attempts B, and audits only the one
failed attempt. -/
theorem claim_C3_counterexample :
    sendgridConfigured envC3 = true ∧ envC3.sendgridNet = NetResult.httpFail
    ∧ mailgunConfigured envC3 = true ∧ envC3.mailgunNet = NetResult.success
    ∧ (send_email envC3).result = false
    ∧ (send_email envC3).attempts = ["sendgrid"]
    ∧ (send_email envC3).audits.map (fun a => a.method) = ["sendgrid"] := by decide

/-- C3 as amended: provider N is attempted iff every earlier provider was
unconfigured or raised an exception (a provider failing with an error
response terminates the chain with result False); the first success
short-circuits; when SendGrid raises an exception and Mailgun succeeds,
the overall result is success, but only the Mailgun attempt is audited —
the SendGrid failure is recorded in the text log only. -/
theorem claim_C3_provider_chain (e : EmailEnv) :
    ("sendgrid" ∈ (send_email e).attempts ↔ sendgridConfigured e = true)
    ∧ ("mailgun" ∈ (send_email e).attempts ↔
        (mailgunConfigured e = true
          ∧ (sendgridConfigured e = false ∨ e.sendgridNet = NetResult.exn)))
    ∧ ("smtp" ∈ (send_email e).attempts ↔
        (smtpConfigured e = true
          ∧ (sendgridConfigured e = false ∨ e.sendgridNet = NetResult.exn)
          ∧ (mailgunConfigured e = false ∨ e.mailgunNet = NetResult.exn)))
    ∧ (sendgridConfigured e = true → e.sendgridNet = NetResult.success →
        (send_email e).result = true ∧ (send_email e).attempts = ["sendgrid"])
    ∧ (sendgridConfigured e = true → e.sendgridNet = NetResult.httpFail →
        (send_email e).result = false ∧ (send_email e).attempts = ["sendgrid"])
    ∧ ((sendgridConfigured e = false ∨ e.sendgridNet = NetResult.exn) →
        mailgunConfigured e = true → e.mailgunNet = NetResult.success →
        (send_email e).result = true ∧ "smtp" ∉ (send_email e).attempts)
    ∧ (sendgridConfigured e = true → e.sendgridNet = NetResult.exn →
        mailgunConfigured e = true → e.mailgunNet = NetResult.success →
        (send_email e).result = true
        ∧ (send_email e).audits = [{ method := "mailgun", status := "success", toks := []
                                     detail := "status=200" }]
        ∧ (send_email e).logs = ["SendGrid exception"]) :=
  chainFacts_C3 (sendgridConfigured e) (mailgunConfigured e) (smtpConfigured e)
    e.sendgridNet e.mailgunNet e.smtpOk

/-- SendGrid configured but raising an exception; Mailgun configured and
succeeding. -/
def envC3w : EmailEnv :=
  { sendgrid_key := some "SG.beta", mailgun_key := some "mg-beta"
    mailgun_domain := some "mg.example", smtp_host := none, smtp_port := none
    sendgridNet := NetResult.exn, mailgunNet := NetResult.success, smtpOk := true }

/-- Witness for C3 as amended, at the exception-fallback environment. -/
theorem claim_C3_provider_chain_witness :
    (send_email envC3w).result = true
    ∧ (send_email envC3w).audits = [{ method := "mailgun", status := "success", toks := []
                                      detail := "status=200" }]
    ∧ (send_email envC3w).logs = ["SendGrid exception"] :=
  (claim_C3_provider_chain envC3w).2.2.2.2.2.2 (by decide) (by decide) (by decide) (by decide)

theorem chainFacts_C4 :
    ∀ (sg mg sm : Bool) (sgr mgr : NetResult) (ok : Bool),
    ((sendEmailChain sg mg sm sgr mgr ok).audits.countP (fun a => a.status == "dry-run")
        = if ((!sg || sgr == NetResult.exn) && (!mg || mgr == NetResult.exn) && !sm)
          then 1 else 0)
    ∧ (((!sg || sgr == NetResult.exn) && (!mg || mgr == NetResult.exn) && !sm) = true →
        (sendEmailChain sg mg sm sgr mgr ok).result = false
        ∧ (sendEmailChain sg mg sm sgr mgr ok).audits
            = [{ method := "dry-run", status := "dry-run", toks := [], detail := "" }]) := by
  intro sg mg sm sgr mgr ok
  cases sg <;> cases mg <;> cases sm <;> cases sgr <;> cases mgr <;> cases ok <;>
    exact ⟨by decide, by decide⟩

/-- SendGrid configured and failing with an HTTP error status; no other
provider configured: no provider succeeds, yet the outcome is not
dry-run. -/
def envC4 : EmailEnv :=
  { sendgrid_key := some "SG.gamma", mailgun_key := none, mailgun_domain := none
    smtp_host := none, smtp_port := none
    sendgridNet := NetResult.httpFail, mailgunNet := NetResult.exn, smtpOk := false }

/-- C4 counterexample: a dispatch in which no provider succeeds (the only
configured provider, SendGrid, fails with an error status) records a
"failed" outcome and returns False without ever reaching the dry-run
fallback — contradicting the claim that every no-success dispatch is
recorded as "dry-run". -/
theorem claim_C4_counterexample :
    sendgridConfigured envC4 = true ∧ envC4.sendgridNet = NetResult.httpFail
    ∧ mailgunConfigured envC4 = false ∧ smtpConfigured envC4 = false
    ∧ (send_email envC4).result = false
    ∧ (send_email envC4).audits.map (fun a => a.status) = ["failed"]
    ∧ (∀ a ∈ (send_email envC4).audits, a.status ≠ "dry-run") :=
  ⟨by decide, by decide, by decide, by decide, by decide, by decide, by decide⟩

/-- C4 as amended: the dispatch outcome is recorded as "dry-run" exactly
when every HTTP provider is unconfigured or raised an exception and SMTP
is unconfigured (in particular when nothing is configured); it is then
non-fatal — the dispatch returns False with the single dry-run audit
entry. A configured provider that fails with a response or an SMTP error
records a "failed" outcome instead. -/
theorem claim_C4_dry_run (e : EmailEnv) :
    ((send_email e).audits.countP (fun a => a.status == "dry-run")
        = if dryRunB e then 1 else 0)
    ∧ (dryRunB e = true →
        (send_email e).result = false
        ∧ (send_email e).audits
            = [{ method := "dry-run", status := "dry-run", toks := [], detail := "" }]) :=
  chainFacts_C4 (sendgridConfigured e) (mailgunConfigured e) (smtpConfigured e)
    e.sendgridNet e.mailgunNet e.smtpOk

/-- No provider configured at all. -/
def envC4w : EmailEnv :=
  { sendgrid_key := none, mailgun_key := none, mailgun_domain := none
    smtp_host := none, smtp_port := none
    sendgridNet := NetResult.success, mailgunNet := NetResult.success, smtpOk := true }

/-- Witness for C4 as amended: with nothing configured the outcome is the
audited dry-run, and the dispatch returns False rather than failing. -/
theorem claim_C4_dry_run_witness :
    (send_email envC4w).result = false
    ∧ (send_email envC4w).audits
        = [{ method := "dry-run", status := "dry-run", toks := [], detail := "" }] :=
  (claim_C4_dry_run envC4w).2 (by decide)

theorem chainFacts_C5 :
    ∀ (sg mg sm : Bool) (sgr mgr : NetResult) (ok : Bool),
    ((sendEmailChain sg mg sm sgr mgr ok).audits.countP (fun a => a.method == "sendgrid")
        = if (sg && !(sgr == NetResult.exn)) then 1 else 0)
    ∧ ((sendEmailChain sg mg sm sgr mgr ok).audits.countP (fun a => a.method == "mailgun")
        = if (mg && (!sg || sgr == NetResult.exn) && !(mgr == NetResult.exn))
          then 1 else 0)
    ∧ ((sendEmailChain sg mg sm sgr mgr ok).audits.countP (fun a => a.method == "smtp")
        = if (sm && (!sg || sgr == NetResult.exn) && (!mg || mgr == NetResult.exn))
          then 1 else 0)
    ∧ ((sendEmailChain sg mg sm sgr mgr ok).audits.countP (fun a => a.method == "dry-run")
        = if ((!sg || sgr == NetResult.exn) && (!mg || mgr == NetResult.exn) && !sm)
          then 1 else 0) := by
  intro sg mg sm sgr mgr ok
  cases sg <;> cases mg <;> cases sm <;> cases sgr <;> cases mgr <;> cases ok <;>
    exact ⟨by decide, by decide, by decide, by decide⟩

/-- SendGrid configured but raising an exception; nothing else
configured. -/
def envC5 : EmailEnv :=
  { sendgrid_key := some "SG.delta", mailgun_key := none, mailgun_domain := none
    smtp_host := none, smtp_port := none
    sendgridNet := NetResult.exn, mailgunNet := NetResult.success, smtpOk := true }

/-- C5 counterexample: the SendGrid attempt is made (a network call
happens) but raises an exception; the dispatcher writes a text-log line
and appends no audit entry for that attempt — contradicting the claim
that every delivery attempt appends exactly one audit entry. -/
theorem claim_C5_counterexample :
    (send_email envC5).attempts = ["sendgrid"]
    ∧ (send_email envC5).audits.filter (fun a => a.method == "sendgrid") = []
    ∧ (send_email envC5).logs = ["SendGrid exception", "DRY-RUN send"] :=
  ⟨by decide, by decide, by decide⟩

/-- C5 as amended: on the broadcast channel an attempt appends exactly
one audit entry when it terminates with a response (success or failed
status) — and the SMTP attempt always does — but an attempt that raises
an exception appends none (text log only); the dry-run fallback appends
exactly one entry. On the fan-out channel every token attempt appends
exactly one audit entry, and the token identifier in it is masked to its
first-8-character prefix; the empty-token dry-run appends none. -/
theorem claim_C5_audit_per_attempt (e : EmailEnv) (tokens : List String)
    (resOf : String → NetResult) :
    ((send_email e).audits.countP (fun a => a.method == "sendgrid")
        = if sgAudited e then 1 else 0)
    ∧ ((send_email e).audits.countP (fun a => a.method == "mailgun")
        = if mgAudited e then 1 else 0)
    ∧ ((send_email e).audits.countP (fun a => a.method == "smtp")
        = if smAttempted e then 1 else 0)
    ∧ ((send_email e).audits.countP (fun a => a.method == "dry-run")
        = if dryRunB e then 1 else 0)
    ∧ ((send_line tokens resOf).audits.map (fun a => a.toks)
        = tokens.map (fun t => [maskTok t]))
    ∧ (send_line [] resOf).audits = []
    ∧ (send_line [] resOf).logs = ["DRY-RUN LINE send"] := by
  have h := chainFacts_C5 (sendgridConfigured e) (mailgunConfigured e) (smtpConfigured e)
    e.sendgridNet e.mailgunNet e.smtpOk
  refine ⟨h.1, h.2.1, h.2.2.1, h.2.2.2, ?_, rfl, rfl⟩
  unfold send_line
  by_cases ht : tokens = []
  · subst ht; simp
  · simp only [if_neg ht]
    exact sendLineAux_toks resOf tokens

/-- C6: in the fan-out loop every token is attempted whatever the other
outcomes (the attempts are exactly the token list), and the overall
result is success iff at least one token send succeeded. -/
theorem claim_C6_fanout (tokens : List String) (resOf : String → NetResult) :
    (send_line tokens resOf).attempts = tokens
    ∧ ((send_line tokens resOf).result = true
        ↔ ∃ t ∈ tokens, resOf t = NetResult.success) := by
  unfold send_line
  by_cases ht : tokens = []
  · subst ht; simp
  · rw [if_neg ht]
    show tokens = tokens ∧ ((sendLineAux resOf tokens).1 = true ↔ _)
    refine ⟨rfl, ?_⟩
    rw [sendLineAux_result]
    simp [List.any_eq_true]

/-! ## Status classification and legacy state migration -/

/-- Whether `pat` starts the character list `hay`. -/
def startsWithB : List Char → List Char → Bool
  | [], _ => true
  | _ :: _, [] => false
  | p :: ps, c :: cs => p == c && startsWithB ps cs

/-- Whether `pat` occurs contiguously in `hay` (Python `pat in hay`). -/
def hasSub : List Char → List Char → Bool
  | [], pat => pat.isEmpty
  | c :: rest, pat => startsWithB pat (c :: rest) || hasSub rest pat

/-- Python `pat in hay` on strings. -/
def strContains (hay pat : String) : Bool := hasSub hay.toList pat.toList

/-- The status values the spec calls real. -/
def realStatuses : List String := ["available", "full", "not_started", "other"]

/-- The status classification chain of `fetch_parsed_with_page`
(status starts as "other", then the elif ladder over icon class, icon color,
background color and the visible text). -/
def classify_status (icon_class icon_color bg text : String) : String :=
  if icon_class != "" && strContains icon_class "fa-times" then "full"
  else if icon_color != "" && (strContains icon_color "#f803"
      || strContains icon_color "rgb(248" || strContains icon_color "red") then "full"
  else if bg != "" && (strContains bg "#C0C0C0"
      || strContains bg "rgb(192" || strContains bg "gray") then "full"
  else if strContains text "〇" || strContains text "○" then "available"
  else if icon_class != "" && (strContains icon_class "fa-circle"
      || strContains icon_class "fa-check") then "available"
  else if strContains text "砂" || strContains text "砂時計"
      || (icon_class != "" && strContains icon_class "hourglass") then "not_started"
  else "other"

/-- The legacy-format branch of `_load_notified`: a list (old "set of
previously-seen keys") becomes a dict mapping each serialized key to the
placeholder status "notified". -/
def load_notified_legacy
    (items : List (Option String × Option String × String × String)) : StateMap :=
  items.foldl (fun m k => stSet m (key_to_str k) "notified") []

theorem stGet_foldl_legacy
    (items : List (Option String × Option String × String × String))
    (m : StateMap) (s : String) :
    stGet (items.foldl (fun m k => stSet m (key_to_str k) "notified") m) s
      = if s ∈ items.map key_to_str then some "notified" else stGet m s := by
  induction items generalizing m with
  | nil => simp
  | cons k ks ih =>
    simp only [List.foldl_cons, List.map_cons, List.mem_cons]
    rw [ih]
    by_cases hks : s ∈ ks.map key_to_str
    · simp [hks]
    · rw [if_neg hks, stGet_stSet]
      by_cases hk : s = key_to_str k
      · simp [hk]
      · simp [hk, hks]

/-- C7: loading a legacy state file (a sequence of key tuples) gives
every migrated key the placeholder status "notified", which is distinct
from every real status value and from anything the classifier can
produce; hence the first post-migration observation of an unchanged
"available" slot is still notifiable. -/
theorem claim_C7_legacy_migration
    (items : List (Option String × Option String × String × String))
    (k : Option String × Option String × String × String) (hk : k ∈ items) :
    stGet (load_notified_legacy items) (key_to_str k) = some "notified"
    ∧ ("notified" ∉ realStatuses)
    ∧ (∀ ic ico bg tx, classify_status ic ico bg tx ∈ realStatuses)
    ∧ (∀ ic ico bg tx, classify_status ic ico bg tx ≠ "notified")
    ∧ notifiable "available" (some "notified") = true := by
  refine ⟨?_, by decide, ?_, ?_, by decide⟩
  · unfold load_notified_legacy
    rw [stGet_foldl_legacy]
    simp [List.mem_map.mpr ⟨k, hk, rfl⟩]
  · intro ic ico bg tx
    unfold classify_status
    split_ifs <;> decide
  · intro ic ico bg tx
    unfold classify_status
    split_ifs <;> decide

/-- A concrete legacy key tuple. -/
def legacyKeyA : Option String × Option String × String × String :=
  (some "2025-11-09", some "13:00", "svc1", "2025-11-09 13:00")

/-- Witness for C7 at a one-entry legacy file. -/
theorem claim_C7_legacy_migration_witness :
    stGet (load_notified_legacy [legacyKeyA]) (key_to_str legacyKeyA) = some "notified"
    ∧ notifiable "available" (some "notified") = true := by
  have h := claim_C7_legacy_migration [legacyKeyA] legacyKeyA (by decide)
  exact ⟨h.1, h.2.2.2.2⟩

/-- Witness for C1 at a concrete cycle: the transition record is
produced, the "full" record is not. -/
theorem claim_C1_notifiable_iff_witness :
    (diffEngine [recA, recB] []).1 = [recA] := by
  have h := (claim_C1_notifiable_iff [recA, recB] []).1
  rw [h]
  decide

/-- Witness for C5 at a concrete fan-out: each of the two audit entries
carries only the 8-character token head. -/
theorem claim_C5_audit_per_attempt_witness :
    (send_line ["token-one-long", "tok2"]
      (fun t => if t = "tok2" then NetResult.httpFail else NetResult.success)).audits.map
        (fun a => a.toks) = [["token-on"], ["tok2"]] := by
  have h := (claim_C5_audit_per_attempt envC4w ["token-one-long", "tok2"]
    (fun t => if t = "tok2" then NetResult.httpFail else NetResult.success)).2.2.2.2.1
  rw [h]
  decide

/-- Witness for C6 at the spec scenario: three tokens, the second fails,
all three are attempted and the overall result is success. -/
theorem claim_C6_fanout_witness :
    (send_line ["tokA", "tokB", "tokC"]
      (fun t => if t = "tokB" then NetResult.httpFail else NetResult.success)).attempts
        = ["tokA", "tokB", "tokC"]
    ∧ (send_line ["tokA", "tokB", "tokC"]
      (fun t => if t = "tokB" then NetResult.httpFail else NetResult.success)).result
        = true := by
  have h := claim_C6_fanout ["tokA", "tokB", "tokC"]
    (fun t => if t = "tokB" then NetResult.httpFail else NetResult.success)
  exact ⟨h.1, h.2.mpr ⟨"tokA", by decide, by decide⟩⟩

/-- Witness for C8 as amended: on a concrete batch with a duplicate key,
the kept records cover the duplicated key. -/
theorem claim_C8_normalizer_witness :
    ∃ q ∈ dedupe [recA, recB, recA], slot_key q = slot_key recA := by
  have h := claim_C8_normalizer [recA, recB, recA]
  exact h.2.2.2.2.1 recA (by decide)
